import Mathlib

/-!
Verification of the AutoHotkey debug-adapter core (breakpoint registry,
advanced-breakpoint evaluator, continuation state machine, variable
projection layer and the primitive evaluator library) against its
natural-language specification.  The definitions below are a shallow
embedding of the TypeScript source: JavaScript strings become `String`,
JavaScript objects keyed by strings become association lists, `Map`s
keyed by numbers become association lists over `Nat`, and the
side-effecting request handlers become pure state-passing functions.
-/

namespace AhkDebug

/-- The opening brace character, used by the log-message template regex. -/
def braceOpen : Char := '\x7b'

/-- The closing brace character, used by the log-message template regex. -/
def braceClose : Char := '\x7d'

/-- ASCII lower-casing of a character, as JavaScript `toLowerCase` does on
ASCII input (the only case the adapter's file-path keys exercise). -/
def toLowerChar (c : Char) : Char :=
  if 'A' ≤ c ∧ c ≤ 'Z' then Char.ofNat (c.toNat + 32) else c

/-- ASCII lower-casing of a string (JavaScript `String.prototype.toLowerCase`). -/
def toLowerStr (s : String) : String :=
  String.mk (s.toList.map toLowerChar)

/-- JavaScript `String.prototype.startsWith`. -/
def startsWithStr (s pre : String) : Bool :=
  pre.toList.isPrefixOf s.toList

/-- Events the adapter sends to the IDE (the subset the core emits from the
continuation state machine): `StoppedEvent(reason)`, `OutputEvent(text,
category)` and `TerminatedEvent`. -/
inductive Event where
  | stopped (reason : String)
  | output (text : String) (category : String)
  | terminated
deriving DecidableEq, Repr

/-- The advanced data attached to a breakpoint record: the optional
condition, hit-condition and log-message strings and the running hit
counter (source: the object literal passed to `new dbgp.Breakpoint`). -/
structure AdvancedData where
  condition : Option String
  hitCondition : Option String
  logMessage : Option String
  counter : Nat
deriving DecidableEq, Repr

/-- A breakpoint record as stored in the adapter's registry
(`dbgp.Breakpoint`): file URI, line, and optional advanced data. -/
structure Breakpoint where
  fileUri : String
  line : Nat
  advancedData : Option AdvancedData
deriving DecidableEq, Repr

/-- A debuggee stack frame as reported by the DBGp stack-get command. -/
structure Frame where
  fileUri : String
  line : Nat
deriving DecidableEq, Repr

/-- The observable outcome of one continuation-handling pass: the events
sent to the IDE during the pass, and whether a run command was issued at
the end of the pass (execution resumed). -/
structure PassResult where
  events : List Event
  resumed : Bool
deriving DecidableEq, Repr

/-! ## Hit-condition parsing and evaluation

Source: the body of `checkAdvancedBreakpoint`, which matches the
hit-condition string against `^(<=|<|>=|>|==|=|%)?\s*(\d+)$`, defaults the
operator to `>=`, normalizes `=` to `==`, builds a numeric comparison over
the running counter and evaluates it sandboxed (exceptions swallowed). -/

/-- Match the optional leading comparison operator of a hit-condition
string; the alternatives are tried in the regex's order. -/
def matchOp : List Char → Option String × List Char
  | '<' :: '=' :: rest => (some "<=", rest)
  | '<' :: rest => (some "<", rest)
  | '>' :: '=' :: rest => (some ">=", rest)
  | '>' :: rest => (some ">", rest)
  | '=' :: '=' :: rest => (some "==", rest)
  | '=' :: rest => (some "=", rest)
  | '%' :: rest => (some "%", rest)
  | l => (none, l)

/-- Whitespace characters matched by the regex class `\s` (ASCII part). -/
def isWsChar (c : Char) : Bool :=
  c == ' ' || c == '\t' || c == '\n' || c == '\r' || c == '\x0b' || c == '\x0c'

/-- Decimal value of a digit string (JavaScript number parsing of `\d+`). -/
def digitsToNat (l : List Char) : Nat :=
  l.foldl (fun n c => n * 10 + (c.toNat - 48)) 0

/-- Parse a hit-condition string against the anchored grammar
`(operator)? \s* (digits)`; `none` when the string is malformed. -/
def parseHitCondition (s : String) : Option (Option String × Nat) :=
  let p := matchOp s.toList
  let digits := p.2.dropWhile isWsChar
  if digits ≠ [] ∧ digits.all Char.isDigit then
    some (p.1, digitsToNat digits)
  else
    none

/-- Operator normalization: an omitted operator defaults to `>=` and `=`
is rewritten to `==`. -/
def normalizeOp : Option String → String
  | none => ">="
  | some "=" => "=="
  | some o => o

/-- Evaluate a hit-condition string against the running counter.  A
malformed string yields `false`; `%` builds `counter % number === 0`
(which in JavaScript is `false` when the number is `0`, since `NaN === 0`
is false); the other operators build a direct comparison. -/
def evalHitCondition (counter : Nat) (hitCondition : String) : Bool :=
  match parseHitCondition hitCondition with
  | none => false
  | some (op, n) =>
    let o := normalizeOp op
    if o = "%" then (if n = 0 then false else decide (counter % n = 0))
    else if o = "<=" then decide (counter ≤ n)
    else if o = "<" then decide (counter < n)
    else if o = ">=" then decide (n ≤ counter)
    else if o = ">" then decide (n < counter)
    else if o = "==" then decide (counter = n)
    else false

/-! ## Log-message rendering

Source: `evalLogMessage`, which collects every match of the regex
`(?<!\\)\{(.+?)(?<!\\)\}` (dot excludes the newline; the lazy quantifier
takes the shortest expression), fetches each expression as a primitive
property, and for each truthy fetched value replaces the first regex match
of the current string with it; a newline is appended to the result. -/

/-- Scan for the lazy close of a brace segment: accumulate expression
characters (at least one; the regex's dot excludes the newline) until a
closing brace not preceded by a backslash.  Returns the expression and the
suffix after the closing brace, or `none` when no close exists. -/
def findClose : List Char → List Char → Option (List Char × List Char)
  | _, [] => none
  | acc, c :: rest =>
    if c = braceClose then
      match acc with
      | [] => findClose [c] rest
      | a :: _ =>
        if a = '\\' then findClose (c :: acc) rest
        else some (acc.reverse, rest)
    else if c = '\n' then none
    else findClose (c :: acc) rest

/-- Scan for the first match of the template regex: an opening brace not
preceded by a backslash that has a valid lazy close.  `prevC` is the
character preceding the current position (for the lookbehind), `pre`
accumulates (reversed) the characters before the match.  Returns the
prefix, the expression, and the suffix after the match. -/
def findOpen : Option Char → List Char → List Char → Option (List Char × List Char × List Char)
  | _, _, [] => none
  | prevC, pre, c :: rest =>
    if c = braceOpen ∧ prevC ≠ some '\\' then
      match findClose [] rest with
      | some (expr, suffix) => some (pre.reverse, expr, suffix)
      | none => findOpen (some c) (c :: pre) rest
    else findOpen (some c) (c :: pre) rest

/-- All template-regex matches of a string in order (`matchAll`), fuelled
by the string length: each match consumes at least two characters, so the
fuel never runs out on the reachable calls. -/
def matchAllExprsAux : Nat → Option Char → List Char → List (List Char)
  | 0, _, _ => []
  | Nat.succ fuel, prevC, l =>
    match findOpen prevC [] l with
    | none => []
    | some (_, expr, suffix) => expr :: matchAllExprsAux fuel (some braceClose) suffix

/-- The expressions of every template-regex match of a string, in order. -/
def matchAllExprs (l : List Char) : List (List Char) :=
  matchAllExprsAux (l.length + 1) none l

/-- Replace the first template-regex match of a string (the non-global
`replace` call in the source) with the given value. -/
def replaceFirst (s v : List Char) : List Char :=
  match findOpen none [] s with
  | none => s
  | some (pre, _, suffix) => pre ++ v ++ suffix

/-- Render a log message: fetch every brace-delimited expression as a
primitive property and substitute each truthy fetched value for the first
template-regex match of the current string; append a newline. -/
def evalLogMessage (fetch : String → Option String) (logMessage : String) : String :=
  let exprs := matchAllExprs logMessage.toList
  let evaled := exprs.foldl (fun ev propertyName =>
    match fetch (String.mk propertyName) with
    | some v => if v = "" then ev else replaceFirst ev v.toList
    | none => ev) logMessage.toList
  String.mk evaled ++ "\n"

/-! ## Advanced-breakpoint evaluation

Source: `checkAdvancedBreakpoint`.  One pass increments the counter,
evaluates the (truthy) condition and hit-condition, combines them, and
either sends a stopped event (halt), emits a log output and resumes, or
silently resumes. -/

/-- JavaScript truthiness of an optional string: absent and empty strings
are falsy. -/
def truthy : Option String → Bool
  | none => false
  | some s => decide (s ≠ "")

/-- The combination rule for condition and hit-condition results (source:
the `matchCondition` computation in `checkAdvancedBreakpoint`). -/
def combineMatch (condition hitCondition : Option String)
    (conditionResult hitConditionResult : Bool) : Bool :=
  if truthy condition && truthy hitCondition then conditionResult && hitConditionResult
  else if truthy condition || truthy hitCondition then conditionResult || hitConditionResult
  else true

/-- One pass of `checkAdvancedBreakpoint` over a breakpoint's advanced
data: returns the updated advanced data (counter incremented) and the
pass outcome.  `evalCond` abstracts the external conditional evaluator,
`fetch` the primitive-property fetch used by log-message rendering. -/
def checkAdvancedBreakpoint (evalCond : String → Bool) (fetch : String → Option String)
    (ad : AdvancedData) : AdvancedData × PassResult :=
  let counter := ad.counter + 1
  let ad2 : AdvancedData := { ad with counter := counter }
  let conditionResult :=
    match ad.condition with
    | some c => if c = "" then false else evalCond c
    | none => false
  let hitConditionResult :=
    match ad.hitCondition with
    | some h => if h = "" then false else evalHitCondition counter h
    | none => false
  let matchCondition := combineMatch ad.condition ad.hitCondition conditionResult hitConditionResult
  if matchCondition then
    match ad.logMessage with
    | none => (ad2, ⟨[Event.stopped "conditional breakpoint"], false⟩)
    | some m => (ad2, ⟨[Event.output (evalLogMessage fetch m) "log"], true⟩)
  else (ad2, ⟨[], true⟩)

/-! ## Association lists

JavaScript objects keyed by strings (the breakpoint registry) and `Map`s
keyed by numbers (the projection tables) become association lists that
preserve insertion order, with update-in-place semantics. -/

/-- Lookup in a string-keyed association list (JavaScript `obj[key]`). -/
def sGet {α : Type} : List (String × α) → String → Option α
  | [], _ => none
  | (k, v) :: rest, key => if k = key then some v else sGet rest key

/-- Update-or-append in a string-keyed association list
(JavaScript `obj[key] = value`). -/
def sSet {α : Type} : List (String × α) → String → α → List (String × α)
  | [], key, value => [(key, value)]
  | (k, v) :: rest, key, value =>
    if k = key then (key, value) :: rest else (k, v) :: sSet rest key value

/-- Removal from a string-keyed association list (JavaScript `delete obj[key]`). -/
def sRemove {α : Type} : List (String × α) → String → List (String × α)
  | [], _ => []
  | (k, v) :: rest, key => if k = key then rest else (k, v) :: sRemove rest key

/-- Lookup in a number-keyed association list (`Map.get`). -/
def nGet {α : Type} : List (Nat × α) → Nat → Option α
  | [], _ => none
  | (k, v) :: rest, key => if k = key then some v else nGet rest key

/-- Update-or-append in a number-keyed association list (`Map.set`). -/
def nSet {α : Type} : List (Nat × α) → Nat → α → List (Nat × α)
  | [], key, value => [(key, value)]
  | (k, v) :: rest, key, value =>
    if k = key then (key, value) :: rest else (k, v) :: nSet rest key value

/-! ## Continuation state machine

Source: `checkContinuationStatus`, `getCurrentBreakpoint` and the
request handlers that drive them.  The adapter's session state holds the
two ever-increasing handle counters, the three projection tables and the
breakpoint registry. -/

/-- The mutable state of `AhkDebugSession` relevant to the core: handle
counters, projection tables, and the breakpoint registry. -/
structure SessionState where
  stackFrameIdCounter : Nat
  stackFrames : List (Nat × Frame)
  variableReferenceCounter : Nat
  contexts : List (Nat × String)
  objectProperties : List (Nat × String)
  breakpoints : List (String × Breakpoint)
deriving DecidableEq, Repr

/-- Look up the breakpoint record for the current top stack frame (source:
`getCurrentBreakpoint`): the key is the lower-cased client path of the
frame's file URI concatenated with the line; a failed stack-get (`none`
frame) yields no breakpoint.  Returns the key together with the record so
that the caller can write the updated record back. -/
def getCurrentBreakpoint (toClient : String → String)
    (registry : List (String × Breakpoint)) (topFrame : Option Frame) :
    Option (String × Breakpoint) :=
  match topFrame with
  | none => none
  | some fr =>
    let key := toLowerStr (toClient fr.fileUri) ++ toString fr.line
    match sGet registry key with
    | some bp => some (key, bp)
    | none => none

/-- One pass of `checkContinuationStatus`: dispatches on the continuation
response's status, optionally re-checks for an advanced breakpoint at the
landing line, and otherwise emits the stop event whose reason is derived
from the originating command name.  Returns the updated registry (the
advanced pass increments the matched record's counter in place) and the
pass outcome. -/
def checkContinuationStatus (toClient : String → String) (evalCond : String → Bool)
    (fetch : String → Option String) (registry : List (String × Breakpoint))
    (status : String) (commandName : String) (checkExtraBreakpoint : Bool)
    (topFrame : Option Frame) : List (String × Breakpoint) × PassResult :=
  if status = "stopped" then (registry, ⟨[Event.terminated], false⟩)
  else if status = "break" then
    match (if checkExtraBreakpoint then getCurrentBreakpoint toClient registry topFrame else none) with
    | some (key, bp) =>
      match bp.advancedData with
      | none => (registry, ⟨[], false⟩)
      | some ad =>
        let p := checkAdvancedBreakpoint evalCond fetch ad
        (sSet registry key { bp with advancedData := some p.1 }, p.2)
    | none =>
      let stopReason := if startsWithStr commandName "step" then "step" else "breakpoint"
      (registry, ⟨[Event.stopped stopReason], false⟩)
  else (registry, ⟨[], false⟩)

/-- `checkContinuationStatus` lifted to the full session state: only the
breakpoint registry can change (through the advanced pass's counter
increment); the projection tables and handle counters are untouched. -/
def sessionCheckContinuationStatus (toClient : String → String) (evalCond : String → Bool)
    (fetch : String → Option String) (st : SessionState) (status : String)
    (commandName : String) (checkExtraBreakpoint : Bool) (topFrame : Option Frame) :
    SessionState × PassResult :=
  let p := checkContinuationStatus toClient evalCond fetch st.breakpoints status
    commandName checkExtraBreakpoint topFrame
  ({ st with breakpoints := p.1 }, p.2)

/-- The launch configuration fields consulted by configuration-done. -/
structure Config where
  stopOnEntry : Bool
  useAdvancedBreakpoint : Bool
deriving DecidableEq, Repr

/-- The DBGp command configuration-done issues: step-into under
stop-on-entry, run otherwise (source: `configurationDoneRequest`). -/
def configurationDoneCommand (cfg : Config) : String :=
  if cfg.stopOnEntry then "step_into" else "run"

/-- The check-extra-breakpoint flag configuration-done passes to
`checkContinuationStatus`: the negation of stop-on-entry when advanced
breakpoints are enabled, and the parameter default `false` otherwise. -/
def configurationDoneCheckFlag (cfg : Config) : Bool :=
  if cfg.useAdvancedBreakpoint then !cfg.stopOnEntry else false

/-- The continuation handling performed by `configurationDoneRequest` on
the response of its initial command. -/
def configurationDoneFlow (toClient : String → String) (evalCond : String → Bool)
    (fetch : String → Option String) (registry : List (String × Breakpoint))
    (cfg : Config) (status : String) (topFrame : Option Frame) :
    List (String × Breakpoint) × PassResult :=
  checkContinuationStatus toClient evalCond fetch registry status
    (configurationDoneCommand cfg) (configurationDoneCheckFlag cfg) topFrame

/-! ## Variable projection layer (handle allocation)

Source: `stackTraceRequest` and `scopesRequest`.  Each allocates handles
from its ever-increasing counter and records them in the corresponding
projection table. -/

/-- `stackTraceRequest`: allocate one frame handle per reported stack
frame, record each in the `stackFrames` table, and return the handles
paired with their frames. -/
def stackTraceRequest (st : SessionState) : List Frame → SessionState × List (Nat × Frame)
  | [] => (st, [])
  | f :: fs =>
    let id := st.stackFrameIdCounter
    let st1 := { st with
      stackFrameIdCounter := id + 1
      stackFrames := nSet st.stackFrames id f }
    let p := stackTraceRequest st1 fs
    (p.1, (id, f) :: p.2)

/-- `scopesRequest`: an unknown frame handle raises a hard error
(`none`); otherwise allocate one variable-reference handle per context
name, record each in `contexts`, and return the named scopes. -/
def scopesRequest (st : SessionState) (frameId : Nat) (contextNames : Frame → List String) :
    Option (SessionState × List (String × Nat)) :=
  match nGet st.stackFrames frameId with
  | none => none
  | some frame =>
    some ((contextNames frame).foldl (fun acc name =>
      let ref := acc.1.variableReferenceCounter
      ({ acc.1 with
          variableReferenceCounter := ref + 1
          contexts := nSet acc.1.contexts ref name },
        acc.2 ++ [(name, ref)])) (st, []))

/-! ## Breakpoint registry: the set-breakpoints request

Source: `setBreakPointsRequest`.  The debuggee-side breakpoint store and
its id counter are modelled explicitly; path/URI conversion and the
debuggee's line resolution are abstracted as function parameters. -/

/-- A debuggee-side (DBGp) breakpoint as returned by the list command. -/
structure DbgpBp where
  id : Nat
  fileUri : String
  line : Nat
deriving DecidableEq, Repr

/-- The debuggee-side breakpoint store and its id counter. -/
structure DbgpState where
  bps : List DbgpBp
  nextId : Nat
deriving DecidableEq, Repr

/-- One breakpoint requested by the IDE in a set-breakpoints request. -/
structure ReqBp where
  line : Nat
  condition : Option String
  hitCondition : Option String
  logMessage : Option String
deriving DecidableEq, Repr

/-- One entry of the set-breakpoints response body. -/
structure VscodeBpOut where
  id : Nat
  line : Nat
  verified : Bool
deriving DecidableEq, Repr

/-- The set-breakpoints request: first clear every debuggee-side
breakpoint of the file (deleting the registry record under the
lower-cased key for each), then set each requested breakpoint, looking
the registry up under the non-lower-cased key and either merging the
advanced fields into an existing record (counter untouched) or inserting
a fresh record with counter 0 under the lower-cased key. -/
def setBreakPointsRequest (toDebugger toClient : String → String)
    (resolveLine : String → Nat → Nat) (registry : List (String × Breakpoint))
    (dbgp : DbgpState) (filePath : String) (reqs : List ReqBp) :
    List (String × Breakpoint) × DbgpState × List VscodeBpOut :=
  let fileUri := toDebugger filePath
  let isMatch := fun (b : DbgpBp) => toLowerStr filePath = toLowerStr (toClient b.fileUri)
  let registry1 := dbgp.bps.foldl (fun reg b =>
    if isMatch b then sRemove reg (toLowerStr filePath ++ toString b.line) else reg) registry
  let dbgp1 : DbgpState := { dbgp with bps := dbgp.bps.filter (fun b => !isMatch b) }
  reqs.foldl (fun acc req =>
    let reg := acc.1
    let d := acc.2.1
    let outs := acc.2.2
    let id := d.nextId
    let line := resolveLine fileUri req.line
    let d2 : DbgpState := { bps := d.bps ++ [⟨id, fileUri, line⟩], nextId := id + 1 }
    let reg2 :=
      match sGet reg (filePath ++ toString line) with
      | some bp =>
        match bp.advancedData with
        | some ad =>
          sSet reg (filePath ++ toString line)
            { bp with advancedData := some { ad with
                condition := req.condition
                hitCondition := req.hitCondition
                logMessage := req.logMessage } }
        | none =>
          sSet reg (toLowerStr filePath ++ toString line)
            ⟨fileUri, line, some ⟨req.condition, req.hitCondition, req.logMessage, 0⟩⟩
      | none =>
        sSet reg (toLowerStr filePath ++ toString line)
          ⟨fileUri, line, some ⟨req.condition, req.hitCondition, req.logMessage, 0⟩⟩
    (reg2, d2, outs ++ [⟨id, line, true⟩])) (registry1, dbgp1, [])

/-! ## Primitive evaluator library

Source: `src/util/evaluator/library.ts`.  An evaluated value is a
string, a number, a boolean, an object property, or undefined; the
library maps case-insensitive names to functions. -/

/-- A value produced by the expression evaluator. -/
inductive EvaluatedValue where
  | undef
  | str (s : String)
  | num (n : Int)
  | boolVal (b : Bool)
  | obj (address : Nat)
deriving DecidableEq, Repr

/-- The library function registered as both `IsSet` and `IsUndefined`
(source: `typeof value === 'undefined'`). -/
def isSet (v : EvaluatedValue) : Bool :=
  match v with
  | .undef => true
  | _ => false

/-- The library function `IsString` (`typeof value === 'string'`). -/
def isString (v : EvaluatedValue) : Bool :=
  match v with
  | .str _ => true
  | _ => false

/-- The library function `IsNumber` (`typeof value === 'number'`). -/
def isNumber (v : EvaluatedValue) : Bool :=
  match v with
  | .num _ => true
  | _ => false

/-- The v1 library registrations of the predicate functions (the
session-dependent and float-valued entries are outside this model's
scope). -/
def library_for_v1 : List (String × (EvaluatedValue → Bool)) :=
  [("IsSet", isSet), ("IsUndefined", isSet), ("IsString", isString), ("IsNumber", isNumber)]

/-- The v2 library registrations of the predicate functions. -/
def library_for_v2 : List (String × (EvaluatedValue → Bool)) :=
  [("IsSet", isSet), ("IsUndefined", isSet), ("IsString", isString), ("IsNumber", isNumber)]

/-- Case-insensitive library lookup (`CaseInsensitiveMap.get`). -/
def libGet (lib : List (String × (EvaluatedValue → Bool))) (name : String) :
    Option (EvaluatedValue → Bool) :=
  match lib with
  | [] => none
  | (k, f) :: rest => if toLowerStr k = toLowerStr name then some f else libGet rest name

/-! ## Helper lemmas -/

/-- Keys at or above the bound of a number-keyed table are absent. -/
theorem nGet_none_of_lt {α : Type} (m : List (Nat × α)) (c k : Nat)
    (hb : ∀ p ∈ m, p.1 < c) (hk : c ≤ k) : nGet m k = none := by
  induction m with
  | nil => rfl
  | cons hd tl ih =>
    have hhd := hb hd (List.mem_cons_self hd tl)
    have : hd.1 ≠ k := by omega
    cases hd with
    | mk k' v =>
      simp only [nGet]
      rw [if_neg (by simpa using this)]
      exact ih (fun p hp => hb p (List.mem_cons_of_mem _ hp))

/-- Every frame handle allocated by a stack-trace request is at least the
counter value the request started from. -/
theorem stackTrace_ids_ge : ∀ (fs : List Frame) (st : SessionState) (q : Nat × Frame),
    q ∈ (stackTraceRequest st fs).2 → st.stackFrameIdCounter ≤ q.1 := by
  intro fs
  induction fs with
  | nil => intro st q hq; simp [stackTraceRequest] at hq
  | cons f fs ih =>
    intro st q hq
    simp only [stackTraceRequest] at hq
    rcases List.mem_cons.mp hq with h | h
    · subst h; exact Nat.le_refl _
    · have := ih _ q h
      simp only at this
      omega

/-- Evaluating the hit-condition string percent-three tests divisibility
of the counter by three. -/
theorem evalHitCondition_percent3 (c : Nat) : evalHitCondition c "%3" = decide (c % 3 = 0) := rfl

/-! ## The claims -/

/-- C1, counterexample: with `stopOnEntry = true` and
`useAdvancedBreakpoint = true`, configuration-done emits a stop event
(reason step) directly on a `break` status, leaving the registry
untouched, even though an advanced breakpoint matches the landing line —
whereas dispatching to the advanced-breakpoint evaluator would have
incremented its counter and resumed without stopping. -/
theorem configurationDone_stopOnEntry_recheck_counterexample :
    configurationDoneFlow id (fun _ => false) (fun _ => none)
      [("c:/demo.ahk1", ⟨"file:///c:/demo.ahk", 1, some ⟨some "cond", none, none, 0⟩⟩)]
      ⟨true, true⟩ "break" (some ⟨"c:/demo.ahk", 1⟩) =
      ([("c:/demo.ahk1", ⟨"file:///c:/demo.ahk", 1, some ⟨some "cond", none, none, 0⟩⟩)],
       ⟨[Event.stopped "step"], false⟩) ∧
    checkAdvancedBreakpoint (fun _ => false) (fun _ => none) ⟨some "cond", none, none, 0⟩ =
      (⟨some "cond", none, none, 1⟩, ⟨[], true⟩) ∧
    (⟨[Event.stopped "step"], false⟩ : PassResult) ≠ ⟨[], true⟩ :=
  ⟨by decide, by decide, by decide⟩

/-- C1, amended: when configuration-done runs with `stopOnEntry = true`
and `useAdvancedBreakpoint = true`, the adapter issues a step-into
command but passes the negation of `stopOnEntry` as the
check-extra-breakpoint flag, so on a resulting `break` status the stop
event (reason step) is emitted directly without re-checking for an
advanced breakpoint; the re-check flag is passed only when
`stopOnEntry = false`. -/
theorem configurationDone_stopOnEntry_no_recheck :
    ∀ (toClient : String → String) (evalCond : String → Bool)
      (fetch : String → Option String) (registry : List (String × Breakpoint))
      (topFrame : Option Frame),
      configurationDoneCommand ⟨true, true⟩ = "step_into" ∧
      configurationDoneCheckFlag ⟨true, true⟩ = false ∧
      configurationDoneFlow toClient evalCond fetch registry ⟨true, true⟩ "break" topFrame =
        (registry, ⟨[Event.stopped "step"], false⟩) ∧
      configurationDoneCheckFlag ⟨false, true⟩ = true := by
  intro toClient evalCond fetch registry topFrame
  exact ⟨rfl, rfl, rfl, rfl⟩

/-- C3, counterexample: a registry breakpoint carrying no condition, no
hit-condition and no log message, hit on a `break` status with the
advanced check active, halts with stop reason conditional breakpoint —
not breakpoint as the claim states. -/
theorem plain_breakpoint_reason_counterexample :
    checkContinuationStatus id (fun _ => false) (fun _ => none)
      [("c:/demo.ahk1", ⟨"file:///c:/demo.ahk", 1, some ⟨none, none, none, 0⟩⟩)]
      "break" "run" true (some ⟨"c:/demo.ahk", 1⟩) =
      ([("c:/demo.ahk1", ⟨"file:///c:/demo.ahk", 1, some ⟨none, none, none, 1⟩⟩)],
       ⟨[Event.stopped "conditional breakpoint"], false⟩) ∧
    ("conditional breakpoint" : String) ≠ "breakpoint" :=
  ⟨by decide, by decide⟩

/-- C3, amended: every breakpoint whose advanced data carries no
condition, no hit-condition and no log message always halts on
evaluation — a stopped notification is emitted and execution is not
resumed — but with stop reason conditional breakpoint; the reason
breakpoint only arises on the path that skips the advanced check. -/
theorem plain_breakpoint_halts_conditional_reason :
    ∀ (evalCond : String → Bool) (fetch : String → Option String) (n : Nat)
      (toClient : String → String) (registry : List (String × Breakpoint))
      (topFrame : Option Frame),
      checkAdvancedBreakpoint evalCond fetch ⟨none, none, none, n⟩ =
        (⟨none, none, none, n + 1⟩, ⟨[Event.stopped "conditional breakpoint"], false⟩) ∧
      checkContinuationStatus toClient evalCond fetch registry "break" "run" false topFrame =
        (registry, ⟨[Event.stopped "breakpoint"], false⟩) := by
  intro evalCond fetch n toClient registry topFrame
  exact ⟨rfl, rfl⟩

/-- C5 (confirmed): log-message rendering substitutes the fetched value
for each segment of unescaped braces, leaves backslash-escaped braces
(and their backslashes) intact, and appends a trailing newline: the
template x=\x7bx\x7d followed by a literal backslash-n, with x fetching
the string 42, renders to x=42 backslash-n plus the trailing newline,
and the fully escaped template renders unchanged. -/
theorem evalLogMessage_renders :
    evalLogMessage (fun n => if n = "x" then some "42" else none) "x=\x7bx\x7d\\n" =
      "x=42\\n" ++ "\n" ∧
    evalLogMessage (fun n => if n = "x" then some "42" else none) "\\\x7bliteral\\\x7d" =
      "\\\x7bliteral\\\x7d" ++ "\n" ∧
    ∀ (fetch : String → Option String) (msg : String),
      ∃ r : String, evalLogMessage fetch msg = r ++ "\n" :=
  ⟨by decide, by decide, fun fetch msg => ⟨_, rfl⟩⟩

/-- C6 (confirmed): a hit-condition percent-three halts the evaluation
pass exactly when the incremented counter is a multiple of three and
silently resumes otherwise, and an omitted operator defaults to
greater-or-equal, so the hit-condition 5 evaluates identically to
greater-or-equal-5 at every counter value. -/
theorem hitCondition_percent3_and_default :
    (∀ (n : Nat) (evalCond : String → Bool) (fetch : String → Option String),
      checkAdvancedBreakpoint evalCond fetch ⟨none, some "%3", none, n⟩ =
        (⟨none, some "%3", none, n + 1⟩,
         if (n + 1) % 3 = 0 then ⟨[Event.stopped "conditional breakpoint"], false⟩
         else ⟨[], true⟩)) ∧
    (∀ c : Nat, evalHitCondition c "%3" = decide (c % 3 = 0)) ∧
    (∀ c : Nat, evalHitCondition c "5" = evalHitCondition c ">=5") := by
  refine ⟨?_, fun c => rfl, fun c => rfl⟩
  intro n evalCond fetch
  by_cases h : (n + 1) % 3 = 0 <;>
    simp [checkAdvancedBreakpoint, combineMatch, truthy, evalHitCondition_percent3, h]

/-- C7 (confirmed): the combination of condition and hit-condition
results is their conjunction when both are present, the present side's
own result when exactly one is present, and true when neither is
present (results are gated to false for absent sides, exactly as the
evaluator computes them). -/
theorem combineMatch_cases :
    ∀ (condition hitCondition : Option String) (eC eH : Bool),
      combineMatch condition hitCondition
        (if truthy condition then eC else false)
        (if truthy hitCondition then eH else false) =
      if truthy condition && truthy hitCondition then eC && eH
      else if truthy condition then eC
      else if truthy hitCondition then eH
      else true := by
  intro condition hitCondition eC eH
  cases h1 : truthy condition <;> cases h2 : truthy hitCondition <;>
    simp [combineMatch, h1, h2]

/-- C8 (confirmed): a breakpoint whose advanced data includes a log
message never halts: the evaluation pass always resumes execution, never
emits a stopped notification, and emits either nothing or exactly the
rendered log output. -/
theorem logPoints_never_halt :
    ∀ (evalCond : String → Bool) (fetch : String → Option String)
      (c hc : Option String) (m : String) (n : Nat),
      ((checkAdvancedBreakpoint evalCond fetch ⟨c, hc, some m, n⟩).2.resumed = true) ∧
      (∀ r : String,
        Event.stopped r ∉ (checkAdvancedBreakpoint evalCond fetch ⟨c, hc, some m, n⟩).2.events) ∧
      ((checkAdvancedBreakpoint evalCond fetch ⟨c, hc, some m, n⟩).2.events = [] ∨
       (checkAdvancedBreakpoint evalCond fetch ⟨c, hc, some m, n⟩).2.events =
         [Event.output (evalLogMessage fetch m) "log"]) := by
  intro evalCond fetch c hc m n
  simp only [checkAdvancedBreakpoint]
  split
  · exact ⟨rfl, fun r hr => by simp at hr, Or.inr rfl⟩
  · exact ⟨rfl, fun r hr => by simp at hr, Or.inl rfl⟩

/-- C9 (confirmed): a hit-condition string that does not parse against
the grammar yields a false hit-condition result, and the evaluation pass
completes normally — no event is emitted and execution resumes (the
sandboxed evaluation of the well-formed numeric comparisons the code
builds cannot itself fail, so the catch branch is unreachable). -/
theorem malformed_hitCondition_false :
    ∀ (c : Nat) (s : String) (evalCond : String → Bool)
      (fetch : String → Option String) (n : Nat),
      parseHitCondition s = none → s ≠ "" →
      evalHitCondition c s = false ∧
      checkAdvancedBreakpoint evalCond fetch ⟨none, some s, none, n⟩ =
        (⟨none, some s, none, n + 1⟩, ⟨[], true⟩) := by
  intro c s evalCond fetch n hparse hne
  have hfalse : ∀ k : Nat, evalHitCondition k s = false := by
    intro k
    simp [evalHitCondition, hparse]
  refine ⟨hfalse c, ?_⟩
  simp [checkAdvancedBreakpoint, combineMatch, truthy, hne, hfalse]

/-- C9, witness: the concrete malformed hit-condition string abc. -/
theorem malformed_hitCondition_false_witness :
    (parseHitCondition "abc" = none ∧ ("abc" : String) ≠ "") ∧
    (evalHitCondition 7 "abc" = false ∧
     checkAdvancedBreakpoint (fun _ => false) (fun _ => none) ⟨none, some "abc", none, 0⟩ =
       (⟨none, some "abc", none, 1⟩, ⟨[], true⟩)) :=
  ⟨⟨by decide, by decide⟩,
   malformed_hitCondition_false 7 "abc" (fun _ => false) (fun _ => none) 0
     (by decide) (by decide)⟩

/-- C10 (confirmed): IsSet and IsUndefined are registered to the same
function in both library versions, and that function returns true
exactly on the undefined value, hence false on every defined value. -/
theorem isSet_isUndefined_same :
    libGet library_for_v1 "IsSet" = some isSet ∧
    libGet library_for_v1 "IsUndefined" = some isSet ∧
    libGet library_for_v2 "IsSet" = some isSet ∧
    libGet library_for_v2 "IsUndefined" = some isSet ∧
    (∀ v : EvaluatedValue, isSet v = true ↔ v = EvaluatedValue.undef) :=
  ⟨rfl, rfl, rfl, rfl, by intro v; cases v <;> simp [isSet]⟩

/-- C4, counterexample: a stopped transition (a break handled by the
continuation state machine, which emits the stopped event) leaves the
session state untouched, so a frame handle issued before the transition
still resolves afterwards, both in the raw table lookup and through a
scopes request. -/
theorem handles_survive_stop_counterexample :
    sessionCheckContinuationStatus id (fun _ => false) (fun _ => none)
      ⟨2, [(1, ⟨"c:/demo.ahk", 3⟩)], 1, [], [], []⟩ "break" "run" false none =
      (⟨2, [(1, ⟨"c:/demo.ahk", 3⟩)], 1, [], [], []⟩, ⟨[Event.stopped "breakpoint"], false⟩) ∧
    nGet [(1, (⟨"c:/demo.ahk", 3⟩ : Frame))] 1 = some ⟨"c:/demo.ahk", 3⟩ ∧
    scopesRequest ⟨2, [(1, ⟨"c:/demo.ahk", 3⟩)], 1, [], [], []⟩ 1 (fun _ => ["Local"]) =
      some (⟨2, [(1, ⟨"c:/demo.ahk", 3⟩)], 2, [(1, "Local")], [], []⟩, [("Local", 1)]) :=
  ⟨by decide, by decide, by decide⟩

/-- C4, amended: the continuation state machine never resets the
projection tables or the handle counters — a handle issued before a
stopped transition still resolves afterwards — while freshness does
hold: under the invariant that every recorded frame handle is below the
counter, every handle a stack-trace request allocates is absent from the
pre-existing table (handle values are never reused). -/
theorem handles_fresh_tables_not_reset :
    ∀ (toClient : String → String) (evalCond : String → Bool)
      (fetch : String → Option String) (st : SessionState) (status commandName : String)
      (check : Bool) (topFrame : Option Frame),
      ((sessionCheckContinuationStatus toClient evalCond fetch st status commandName
          check topFrame).1.stackFrames = st.stackFrames ∧
       (sessionCheckContinuationStatus toClient evalCond fetch st status commandName
          check topFrame).1.contexts = st.contexts ∧
       (sessionCheckContinuationStatus toClient evalCond fetch st status commandName
          check topFrame).1.objectProperties = st.objectProperties ∧
       (sessionCheckContinuationStatus toClient evalCond fetch st status commandName
          check topFrame).1.stackFrameIdCounter = st.stackFrameIdCounter ∧
       (sessionCheckContinuationStatus toClient evalCond fetch st status commandName
          check topFrame).1.variableReferenceCounter = st.variableReferenceCounter) ∧
      (∀ frames : List Frame,
        (∀ p ∈ st.stackFrames, p.1 < st.stackFrameIdCounter) →
        ∀ q ∈ (stackTraceRequest st frames).2, nGet st.stackFrames q.1 = none) := by
  intro toClient evalCond fetch st status commandName check topFrame
  refine ⟨⟨rfl, rfl, rfl, rfl, rfl⟩, ?_⟩
  intro frames hb q hq
  exact nGet_none_of_lt st.stackFrames st.stackFrameIdCounter q.1 hb
    (stackTrace_ids_ge frames st q hq)

/-- C4, witness: the freshness half instantiated at a one-entry table. -/
theorem handles_fresh_tables_not_reset_witness :
    (∀ p ∈ [((1 : Nat), (⟨"c:/demo.ahk", 3⟩ : Frame))], p.1 < 2) ∧
    (∀ q ∈ (stackTraceRequest ⟨2, [(1, ⟨"c:/demo.ahk", 3⟩)], 1, [], [], []⟩
        [⟨"c:/demo.ahk", 7⟩]).2,
      nGet ([(1, (⟨"c:/demo.ahk", 3⟩ : Frame))]) q.1 = none) := by
  constructor
  · intro p hp
    rw [List.mem_singleton] at hp
    subst hp
    decide
  · exact (handles_fresh_tables_not_reset id (fun _ => false) (fun _ => none)
      ⟨2, [(1, ⟨"c:/demo.ahk", 3⟩)], 1, [], [], []⟩ "break" "run" false none).2
      [⟨"c:/demo.ahk", 7⟩]
      (by intro p hp; rw [List.mem_singleton] at hp; subst hp; decide)

/-- Path-to-URI conversion of the demo file, standing in for the
adapter's `convertClientPathToDebugger`. -/
def demoToDebugger : String → String :=
  fun p => if p = "c:/demo.ahk" then "file:///c:/demo.ahk" else p

/-- URI-to-path conversion of the demo file, standing in for the
adapter's `convertDebuggerPathToClient`. -/
def demoToClient : String → String :=
  fun u => if u = "file:///c:/demo.ahk" then "c:/demo.ahk" else u

/-- A registry holding one breakpoint record for the demo file at line 5
whose hit counter has already reached 3. -/
def demoRegistry : List (String × Breakpoint) :=
  [("c:/demo.ahk5", ⟨"file:///c:/demo.ahk", 5, some ⟨some "x>0", none, none, 3⟩⟩)]

/-- The matching debuggee-side breakpoint store: the breakpoint at line 5
is listed, so the clear phase of a set-breakpoints request removes it. -/
def demoDbgp : DbgpState := ⟨[⟨1, "file:///c:/demo.ahk", 5⟩], 2⟩

/-- C2 (code bug): re-applying the file's breakpoint set at the same
location does not preserve the record's hit counter — the clear phase
deletes the registry record of every listed debuggee-side breakpoint of
the file before the merge lookup runs (and the merge lookup uses a
non-lower-cased key although records are inserted under lower-cased
keys), so the record is recreated with counter 0 instead of keeping 3. -/
theorem setBreakPoints_reapply_resets_counter :
    sGet demoRegistry "c:/demo.ahk5" =
      some ⟨"file:///c:/demo.ahk", 5, some ⟨some "x>0", none, none, 3⟩⟩ ∧
    sGet (setBreakPointsRequest demoToDebugger demoToClient (fun _ l => l) demoRegistry
        demoDbgp "c:/demo.ahk" [⟨5, some "x>0", none, none⟩]).1 "c:/demo.ahk5" =
      some ⟨"file:///c:/demo.ahk", 5, some ⟨some "x>0", none, none, 0⟩⟩ :=
  ⟨by decide, by decide⟩

end AhkDebug
